import Mathlib

/-!
Verification of the rx888_stream firmware uploader (ezusb.c) and the
asynchronous bulk-streaming engine (my_usb_example.c) against the
natural-language specification.

A firmware image is modelled as a list of bytes (each a natural number
below 256).  The firmware installer is embedded as a pure function from
the image to the list of control transfers it issues plus the function's
result; file I/O, allocation and the libusb transport are external
collaborators assumed to succeed, exactly as in the source's success
path.  The streaming engine's completion callback is embedded as a pure
state-transition function on the mutable globals of my_usb_example.c,
driven by an externally supplied completion record (status, length,
current time, whether a resubmission attempt would succeed).
-/

/-- One control transfer as issued through libusb_control_transfer: the
request-type byte, the request code, the 16-bit value and index fields
(as received by the uint16_t parameters), the payload bytes, and the
timeout in milliseconds. -/
structure ControlTransfer where
  bmRequestType : Nat
  bRequest : Nat
  wValue : Nat
  wIndex : Nat
  data : List Nat
  timeout : Nat
deriving Repr, DecidableEq

/-- One parsed firmware segment: the target address and the payload
bytes borrowed from the image. -/
structure Segment where
  address : Nat
  payload : List Nat
deriving Repr, DecidableEq

/-- The distinct failure exits of ezusb_install_firmware (the C function
returns -1 on each; they are told apart by the diagnostic printed). -/
inductive InstallError where
  | imageTooLarge
  | invalidSignature
  | truncated
deriving Repr, DecidableEq

/-- FW_CHUNKSIZE from ezusb.c. -/
def FW_CHUNKSIZE : Nat := 4 * 1024

/-- max_size from ezusb_install_firmware. -/
def maxFwSize : Nat := 0x86000

/-- Reading byte i of the image; in-range in every reachable use. -/
def byteAt (image : List Nat) (i : Nat) : Nat := image.getD i 0

/-- The RL32 macro: a 32-bit little-endian read at a byte offset. -/
def RL32 (image : List Nat) (off : Nat) : Nat :=
  byteAt image (off + 3) <<< 24 ||| byteAt image (off + 2) <<< 16 |||
  byteAt image (off + 1) <<< 8 ||| byteAt image off

/-- The computation of a segment's byte length from its encoded length
field: RL32(...) << 2 evaluated in the C type unsigned int, hence
reduced modulo 2^32. -/
def segByteLen (e : Nat) : Nat := (e <<< 2) % 2 ^ 32

/-- The do-while chunk-upload loop of ezusb_install_firmware, reading
the segment payload directly out of the image as the C code does from
firmware + offset + suboffset.  The loop body always runs at least
once; fuel bounds the iteration count and is supplied amply by the
caller. -/
def chunkLoop (image : List Nat) (addr off sublength : Nat) :
    Nat → Nat → List ControlTransfer
  | 0, _ => []
  | fuel + 1, suboffset =>
    let chunksize := min (sublength - suboffset) FW_CHUNKSIZE
    let t : ControlTransfer :=
      { bmRequestType := 0x40
        bRequest := 0xa0
        wValue := (addr + suboffset) % 65536
        wIndex := ((addr + suboffset) >>> 16) % 65536
        data := (image.drop (off + suboffset)).take chunksize
        timeout := 100 }
    if suboffset + chunksize < sublength then
      t :: chunkLoop image addr off sublength fuel (suboffset + chunksize)
    else [t]

/-- The same do-while chunk loop expressed over a segment's own payload
list, used to state per-segment properties. -/
def segChunks (addr : Nat) (payload : List Nat) :
    Nat → Nat → List ControlTransfer
  | 0, _ => []
  | fuel + 1, suboffset =>
    let chunksize := min (payload.length - suboffset) FW_CHUNKSIZE
    let t : ControlTransfer :=
      { bmRequestType := 0x40
        bRequest := 0xa0
        wValue := (addr + suboffset) % 65536
        wIndex := ((addr + suboffset) >>> 16) % 65536
        data := (payload.drop suboffset).take chunksize
        timeout := 100 }
    if suboffset + chunksize < payload.length then
      t :: segChunks addr payload fuel (suboffset + chunksize)
    else [t]

/-- All control transfers the uploader issues for one segment. -/
def uploadSegment (s : Segment) : List ControlTransfer :=
  segChunks s.address s.payload (s.payload.length + 1) 0

/-- Output of the main while loop of ezusb_install_firmware: the
segments parsed, the control transfers issued, and the final value of
the offset variable. -/
structure InstallOut where
  segments : List Segment
  transfers : List ControlTransfer
  finalOffset : Nat
deriving Repr, DecidableEq

/-- The main while loop of ezusb_install_firmware, starting at a given
offset (4 after the signature).  Each iteration either skips the
trailing 4-byte checksum, breaks on fewer than 8 header bytes, breaks
on a declared length exceeding the remaining bytes, or parses one
segment, uploads it chunk by chunk, and advances past its payload. -/
def installLoop (image : List Nat) : Nat → Nat → InstallOut
  | 0, offset => ⟨[], [], offset⟩
  | fuel + 1, offset =>
    if offset < image.length then
      if offset + 4 = image.length then
        ⟨[], [], offset + 4⟩
      else if image.length < offset + 8 then
        ⟨[], [], offset⟩
      else
        let sublength := segByteLen (RL32 image offset)
        let addr := RL32 image (offset + 4)
        let off2 := offset + 8
        if image.length - off2 < sublength then
          ⟨[], [], off2⟩
        else
          let ts := chunkLoop image addr off2 sublength (sublength + 1) 0
          let rest := installLoop image fuel (off2 + sublength)
          ⟨⟨addr, (image.drop off2).take sublength⟩ :: rest.segments,
           ts ++ rest.transfers, rest.finalOffset⟩
    else ⟨[], [], offset⟩

/-- ezusb_install_firmware on an already-loaded image: the size ceiling
check, the 4-byte signature check, the segment loop, and the final
truncation check on the left-over offset. -/
def ezusb_install_firmware (image : List Nat) :
    InstallOut × Except InstallError Unit :=
  if maxFwSize < image.length then
    (⟨[], [], 0⟩, .error .imageTooLarge)
  else if image.length < 4 ∨ byteAt image 0 ≠ 67 ∨ byteAt image 1 ≠ 89 ∨
      byteAt image 3 ≠ 0xb0 then
    (⟨[], [], 0⟩, .error .invalidSignature)
  else
    let out := installLoop image (image.length + 1) 4
    (out, if out.finalOffset < image.length then .error .truncated else .ok ())

/-- The data slice uploaded for a chunk, re-expressed over the segment
payload instead of over the whole image. -/
lemma take_drop_chunk (image : List Nat) (off sublength so ck : Nat)
    (hck : ck ≤ sublength - so) :
    (((image.drop off).take sublength).drop so).take ck =
      (image.drop (off + so)).take ck := by
  rw [List.drop_take, List.drop_drop, List.take_take, min_eq_left hck]

/-- The chunk loop reading out of the image agrees with the chunk loop
over the extracted payload, whenever the payload lies inside the image
(which the caller's truncation check guarantees). -/
lemma chunkLoop_eq_segChunks (image : List Nat) (addr off sublength : Nat)
    (h : off + sublength ≤ image.length) :
    ∀ fuel so, chunkLoop image addr off sublength fuel so =
      segChunks addr ((image.drop off).take sublength) fuel so := by
  have hlen : ((image.drop off).take sublength).length = sublength := by
    rw [List.length_take, List.length_drop]
    omega
  intro fuel
  induction fuel with
  | zero => intro so; rfl
  | succ fuel ih =>
    intro so
    simp only [chunkLoop, segChunks, hlen]
    rw [take_drop_chunk image off sublength so _ (min_le_left _ _)]
    by_cases hc : so + min (sublength - so) FW_CHUNKSIZE < sublength
    · rw [if_pos hc, if_pos hc, ih]
    · rw [if_neg hc, if_neg hc]

/-- The do-while chunk loop issues max 1 (ceil(remaining / 4096))
transfers: the ceiling for a non-empty remainder, and still one
transfer when the remainder is empty, because the body runs before the
condition is tested. -/
lemma segChunks_length (addr : Nat) (payload : List Nat) :
    ∀ fuel so, payload.length - so < fuel →
      (segChunks addr payload fuel so).length =
        max 1 ((payload.length - so + (FW_CHUNKSIZE - 1)) / FW_CHUNKSIZE) := by
  intro fuel
  induction fuel with
  | zero => intro so h; omega
  | succ fuel ih =>
    intro so h
    simp only [segChunks, FW_CHUNKSIZE] at *
    by_cases hc : so + min (payload.length - so) (4 * 1024) < payload.length
    · rw [if_pos hc]
      simp only [List.length_cons]
      rw [ih (so + min (payload.length - so) (4 * 1024)) (by omega)]
      omega
    · rw [if_neg hc]
      simp only [List.length_singleton]
      omega

/-- Number of transfers the uploader issues for one segment. -/
lemma uploadSegment_length (s : Segment) :
    (uploadSegment s).length =
      max 1 ((s.payload.length + (FW_CHUNKSIZE - 1)) / FW_CHUNKSIZE) := by
  have h := segChunks_length s.address s.payload (s.payload.length + 1) 0
    (by omega)
  simpa using h

/-- Every transfer issued by the per-segment chunk loop is the chunk at
some offset k that is a multiple of the chunk size past the starting
suboffset. -/
lemma segChunks_mem (addr : Nat) (payload : List Nat) :
    ∀ fuel so, payload.length - so < fuel → so ≤ payload.length →
      ∀ t ∈ segChunks addr payload fuel so,
        ∃ k, so ≤ k ∧ k ≤ payload.length ∧ (k - so) % FW_CHUNKSIZE = 0 ∧
          t = { bmRequestType := 0x40
                bRequest := 0xa0
                wValue := (addr + k) % 65536
                wIndex := ((addr + k) >>> 16) % 65536
                data := (payload.drop k).take
                  (min (payload.length - k) FW_CHUNKSIZE)
                timeout := 100 } := by
  intro fuel
  induction fuel with
  | zero => intro so h; omega
  | succ fuel ih =>
    intro so h hso t ht
    simp only [segChunks] at ht
    by_cases hc : so + min (payload.length - so) FW_CHUNKSIZE < payload.length
    · rw [if_pos hc] at ht
      rcases List.mem_cons.1 ht with rfl | htail
      · exact ⟨so, le_refl so, hso, by simp, rfl⟩
      · obtain ⟨k, hk1, hk2, hk3, hk4⟩ :=
          ih (so + min (payload.length - so) FW_CHUNKSIZE)
            (by simp only [FW_CHUNKSIZE] at *; omega)
            (by omega) t htail
        refine ⟨k, by omega, hk2, ?_, hk4⟩
        simp only [FW_CHUNKSIZE] at *
        omega
    · rw [if_neg hc] at ht
      rcases List.mem_singleton.1 ht with rfl
      exact ⟨so, le_refl so, hso, by simp, rfl⟩

/-- The chunked upload of one in-image segment equals the per-segment
uploader applied to the extracted segment. -/
lemma chunkLoop_eq_uploadSegment (image : List Nat) (addr off sub : Nat)
    (h : off + sub ≤ image.length) :
    chunkLoop image addr off sub (sub + 1) 0 =
      uploadSegment ⟨addr, (image.drop off).take sub⟩ := by
  have hlen : ((image.drop off).take sub).length = sub := by
    rw [List.length_take, List.length_drop]
    omega
  unfold uploadSegment
  dsimp only
  rw [hlen, chunkLoop_eq_segChunks image addr off sub h (sub + 1) 0]

/-- The transfers issued by the segment loop are exactly the
concatenation of the per-segment uploads of the segments it parses. -/
lemma installLoop_flatMap (image : List Nat) :
    ∀ fuel offset, (installLoop image fuel offset).transfers =
      ((installLoop image fuel offset).segments).flatMap uploadSegment := by
  intro fuel
  induction fuel with
  | zero => intro offset; rfl
  | succ fuel ih =>
    intro offset
    simp only [installLoop]
    by_cases h1 : offset < image.length
    · rw [if_pos h1]
      by_cases h2 : offset + 4 = image.length
      · rw [if_pos h2]
        rfl
      · rw [if_neg h2]
        by_cases h3 : image.length < offset + 8
        · rw [if_pos h3]
          rfl
        · rw [if_neg h3]
          by_cases h4 : image.length - (offset + 8) <
              segByteLen (RL32 image offset)
          · rw [if_pos h4]
            rfl
          · rw [if_neg h4]
            simp only [List.flatMap_cons]
            rw [ih, chunkLoop_eq_uploadSegment image _ _ _ (by omega)]
    · rw [if_neg h1]
      rfl

/-- Unfolding of the segment loop at an offset where the declared
segment length exceeds the remaining bytes: the loop breaks with no
transfer and no segment, leaving offset just past the 8 header bytes. -/
lemma installLoop_break (image : List Nat) (fuel offset : Nat)
    (h1 : offset < image.length) (h2 : offset + 4 ≠ image.length)
    (h3 : offset + 8 ≤ image.length)
    (h4 : image.length - (offset + 8) < segByteLen (RL32 image offset)) :
    installLoop image (fuel + 1) offset = ⟨[], [], offset + 8⟩ := by
  simp only [installLoop]
  rw [if_pos h1, if_neg h2, if_neg (not_lt.2 h3), if_pos h4]

/-- Unfolding of the segment loop at an offset where a whole segment is
available. -/
lemma installLoop_good (image : List Nat) (fuel offset : Nat)
    (h1 : offset < image.length) (h2 : offset + 4 ≠ image.length)
    (h3 : offset + 8 ≤ image.length)
    (h4 : segByteLen (RL32 image offset) ≤ image.length - (offset + 8)) :
    installLoop image (fuel + 1) offset =
      ⟨⟨RL32 image (offset + 4),
          (image.drop (offset + 8)).take (segByteLen (RL32 image offset))⟩ ::
          (installLoop image fuel
            (offset + 8 + segByteLen (RL32 image offset))).segments,
        chunkLoop image (RL32 image (offset + 4)) (offset + 8)
            (segByteLen (RL32 image offset))
            (segByteLen (RL32 image offset) + 1) 0 ++
          (installLoop image fuel
            (offset + 8 + segByteLen (RL32 image offset))).transfers,
        (installLoop image fuel
          (offset + 8 + segByteLen (RL32 image offset))).finalOffset⟩ := by
  have h4n : ¬ (image.length - (offset + 8) < segByteLen (RL32 image offset)) :=
    not_lt.2 h4
  simp only [installLoop]
  rw [if_pos h1, if_neg h2, if_neg (not_lt.2 h3), if_neg h4n]

/-- The segment loop does not depend on the fuel once the fuel strictly
dominates the remaining byte count. -/
lemma installLoop_fuel (image : List Nat) :
    ∀ fuel1 fuel2 offset, image.length - offset < fuel1 →
      image.length - offset < fuel2 →
      installLoop image fuel1 offset = installLoop image fuel2 offset := by
  intro fuel1
  induction fuel1 with
  | zero => intro fuel2 offset h1 h2; omega
  | succ fuel1 ih =>
    intro fuel2 offset h1 h2
    cases fuel2 with
    | zero => omega
    | succ fuel2 =>
      simp only [installLoop]
      by_cases hA : offset < image.length
      · rw [if_pos hA, if_pos hA]
        by_cases hB : offset + 4 = image.length
        · rw [if_pos hB, if_pos hB]
        · rw [if_neg hB, if_neg hB]
          by_cases hC : image.length < offset + 8
          · rw [if_pos hC, if_pos hC]
          · rw [if_neg hC, if_neg hC]
            by_cases hD : image.length - (offset + 8) <
                segByteLen (RL32 image offset)
            · rw [if_pos hD, if_pos hD]
            · rw [if_neg hD, if_neg hD]
              rw [ih fuel2 (offset + 8 + segByteLen (RL32 image offset))
                (by omega) (by omega)]
      · rw [if_neg hA, if_neg hA]

/-- The offsets at which the segment loop of ezusb_install_firmware
arrives at a new iteration: the starting offset 4, and each offset
obtained by consuming one fully available segment. -/
inductive Reaches (image : List Nat) : Nat → Prop
  | start : Reaches image 4
  | step {o : Nat} :
      Reaches image o → o < image.length → o + 4 ≠ image.length →
      o + 8 ≤ image.length →
      segByteLen (RL32 image o) ≤ image.length - (o + 8) →
      Reaches image (o + 8 + segByteLen (RL32 image o))

/-- Running the segment loop from the start decomposes, at every
reachable iteration offset, into the already-parsed segment prefix (and
its transfers) followed by the loop's behaviour from that offset. -/
lemma runLoop_decomp (image : List Nat) {o : Nat} (h : Reaches image o) :
    ∃ pre : List Segment,
      (installLoop image (image.length + 1) 4).segments =
        pre ++ (installLoop image (image.length + 1) o).segments ∧
      (installLoop image (image.length + 1) 4).transfers =
        pre.flatMap uploadSegment ++
          (installLoop image (image.length + 1) o).transfers ∧
      (installLoop image (image.length + 1) 4).finalOffset =
        (installLoop image (image.length + 1) o).finalOffset := by
  induction h with
  | start => exact ⟨[], by simp, by simp, rfl⟩
  | @step o hr h1 h2 h3 h4 ih =>
    obtain ⟨pre, hs, ht, hf⟩ := ih
    have hgood := installLoop_good image image.length o h1 h2 h3 h4
    have hfuel : installLoop image image.length
          (o + 8 + segByteLen (RL32 image o)) =
        installLoop image (image.length + 1)
          (o + 8 + segByteLen (RL32 image o)) := by
      apply installLoop_fuel <;> omega
    have hseg := chunkLoop_eq_uploadSegment image (RL32 image (o + 4)) (o + 8)
      (segByteLen (RL32 image o)) (by omega)
    refine ⟨pre ++ [⟨RL32 image (o + 4),
      (image.drop (o + 8)).take (segByteLen (RL32 image o))⟩], ?_, ?_, ?_⟩
    · rw [hs, hgood, hfuel]
      simp
    · rw [ht, hgood, hfuel, hseg]
      simp
    · rw [hf, hgood, hfuel]

/-- All transfers issued by a firmware install are exactly the
per-segment uploads of the parsed segments, in order (the checksum and
any break contribute none). -/
lemma install_transfers_flatMap (image : List Nat) :
    (ezusb_install_firmware image).1.transfers =
      ((ezusb_install_firmware image).1.segments).flatMap uploadSegment := by
  unfold ezusb_install_firmware
  by_cases hA : maxFwSize < image.length
  · rw [if_pos hA]
    rfl
  · rw [if_neg hA]
    by_cases hB : image.length < 4 ∨ byteAt image 0 ≠ 67 ∨
        byteAt image 1 ≠ 89 ∨ byteAt image 3 ≠ 0xb0
    · rw [if_pos hB]
      rfl
    · rw [if_neg hB]
      exact installLoop_flatMap image (image.length + 1) 4

/-- C1 (amended): the install's transfers are the concatenation of each
parsed segment's chunk transfers, and each segment gets exactly
max 1 (ceil(byteLength / 4096)) transfers: the ceiling when the payload
is non-empty, but still one (empty) transfer for a zero-length segment,
because the chunk loop is a do-while whose body runs before the test.
The trailing checksum yields no segment, hence no transfer. -/
theorem install_chunks_per_segment (image : List Nat) :
    (ezusb_install_firmware image).1.transfers =
      ((ezusb_install_firmware image).1.segments).flatMap uploadSegment ∧
    ∀ s : Segment, (uploadSegment s).length =
      max 1 ((s.payload.length + 4095) / 4096) := by
  refine ⟨install_transfers_flatMap image, fun s => ?_⟩
  have h := uploadSegment_length s
  simpa [FW_CHUNKSIZE] using h

/-- C1 counterexample: the image CY.0xB0 followed by one segment header
declaring encoded length 0 (byteLength 0) at address 0.  The parser
yields one zero-length segment, and the uploader issues one (zero-byte)
control transfer for it, not zero transfers as claimed. -/
theorem install_zero_length_segment_one_transfer :
    (ezusb_install_firmware
        [67, 89, 0, 0xb0, 0, 0, 0, 0, 0, 0, 0, 0]).1.segments =
      [⟨0, []⟩] ∧
    (ezusb_install_firmware
        [67, 89, 0, 0xb0, 0, 0, 0, 0, 0, 0, 0, 0]).1.transfers.length = 1 ∧
    ¬ (ezusb_install_firmware
        [67, 89, 0, 0xb0, 0, 0, 0, 0, 0, 0, 0, 0]).1.transfers.length = 0 := by
  refine ⟨by decide, by decide, by decide⟩

/-- C2 counterexample: a 12-byte image whose single segment header
declares byteLength 4 while 0 bytes remain after the header.  The
declared length exceeds the remaining bytes, yet the install returns
success (the final offset equals the image length, so the truncation
check does not fire) and issues no transfers. -/
theorem install_overdeclared_at_end_succeeds :
    segByteLen (RL32 [67, 89, 0, 0xb0, 1, 0, 0, 0, 0, 0, 0, 0] 4) = 4 ∧
    ([67, 89, 0, 0xb0, 1, 0, 0, 0, 0, 0, 0, 0] : List Nat).length - 12 = 0 ∧
    (ezusb_install_firmware [67, 89, 0, 0xb0, 1, 0, 0, 0, 0, 0, 0, 0]).1.transfers
      = [] ∧
    (ezusb_install_firmware [67, 89, 0, 0xb0, 1, 0, 0, 0, 0, 0, 0, 0]).2 =
      .ok () := by
  refine ⟨by decide, by decide, by decide, rfl⟩

/-- C2 (amended): when the segment loop, at a reachable iteration
offset, meets a header whose declared byteLength exceeds the bytes
remaining after the 8 header bytes, it stops before issuing any
transfer for that segment, with all prior segments' transfers already
issued; the install then reports truncation precisely when at least one
byte remains past the header (when the declared length exceeds an empty
remainder, the install returns success instead). -/
theorem install_truncated_segment (image : List Nat) (o : Nat)
    (hsize : image.length ≤ maxFwSize)
    (hsig0 : byteAt image 0 = 67) (hsig1 : byteAt image 1 = 89)
    (hsig3 : byteAt image 3 = 0xb0)
    (hre : Reaches image o)
    (h1 : o < image.length) (h2 : o + 4 ≠ image.length)
    (h3 : o + 8 ≤ image.length)
    (h4 : image.length - (o + 8) < segByteLen (RL32 image o)) :
    (ezusb_install_firmware image).1.transfers =
      ((ezusb_install_firmware image).1.segments).flatMap uploadSegment ∧
    (ezusb_install_firmware image).1.finalOffset = o + 8 ∧
    ((ezusb_install_firmware image).2 = .error .truncated ↔
      o + 8 < image.length) := by
  have hbreak : installLoop image (image.length + 1) o = ⟨[], [], o + 8⟩ :=
    installLoop_break image image.length o h1 h2 h3 h4
  obtain ⟨pre, hs, ht, hf⟩ := runLoop_decomp image hre
  rw [hbreak] at hf
  have hwrap : ezusb_install_firmware image =
      (installLoop image (image.length + 1) 4,
        if (installLoop image (image.length + 1) 4).finalOffset <
            image.length then .error .truncated else .ok ()) := by
    unfold ezusb_install_firmware
    rw [if_neg (not_lt.2 hsize), if_neg (by push_neg; exact ⟨by omega, hsig0, hsig1, hsig3⟩)]
  refine ⟨install_transfers_flatMap image, ?_, ?_⟩
  · rw [hwrap]
    exact hf
  · rw [hwrap]
    dsimp only
    rw [hf]
    by_cases hend : o + 8 < image.length
    · rw [if_pos hend]
      simp [hend]
    · rw [if_neg hend]
      simp [hend]

/-- C2 witness: a 13-byte image whose single segment header declares
byteLength 4 while only 1 byte remains; the loop breaks at offset 12
and the install reports truncation. -/
theorem install_truncated_segment_witness :
    (ezusb_install_firmware
        [67, 89, 0, 0xb0, 1, 0, 0, 0, 0, 0, 0, 0, 99]).1.finalOffset = 12 ∧
    (ezusb_install_firmware
        [67, 89, 0, 0xb0, 1, 0, 0, 0, 0, 0, 0, 0, 99]).2 =
      .error .truncated := by
  have h := install_truncated_segment
    [67, 89, 0, 0xb0, 1, 0, 0, 0, 0, 0, 0, 0, 99] 4
    (by decide) (by decide) (by decide) (by decide) Reaches.start
    (by decide) (by decide) (by decide) (by decide)
  exact ⟨h.2.1, h.2.2.mpr (by decide)⟩

/-- C3 (amended): for an image within the 0x86000-byte size ceiling,
failing the length-4 or signature byte checks makes the install fail
with the invalid-signature error, parsing no segment and issuing no
transfer.  (An oversized image is rejected earlier with the
image-too-large error, likewise with no segments and no transfers.) -/
theorem install_bad_signature (image : List Nat)
    (hsize : image.length ≤ maxFwSize)
    (hbad : image.length < 4 ∨ byteAt image 0 ≠ 67 ∨ byteAt image 1 ≠ 89 ∨
      byteAt image 3 ≠ 0xb0) :
    ezusb_install_firmware image = (⟨[], [], 0⟩, .error .invalidSignature) := by
  unfold ezusb_install_firmware
  rw [if_neg (not_lt.2 hsize), if_pos hbad]

/-- C3 witness: the empty image is rejected with the invalid-signature
error before any segment is parsed. -/
theorem install_bad_signature_witness :
    ezusb_install_firmware ([] : List Nat) =
      (⟨[], [], 0⟩, .error .invalidSignature) :=
  install_bad_signature [] (by decide) (Or.inl (by decide))

/-- C3 counterexample: an image longer than the 0x86000-byte ceiling
whose byte 0 is not the character C satisfies the claim's hypothesis,
yet the install fails with the image-too-large error, not the
invalid-signature error, because the size check runs first. -/
theorem install_oversized_bad_signature :
    byteAt (List.replicate (maxFwSize + 1) 0) 0 ≠ 67 ∧
    ezusb_install_firmware (List.replicate (maxFwSize + 1) 0) =
      (⟨[], [], 0⟩, .error .imageTooLarge) ∧
    InstallError.imageTooLarge ≠ InstallError.invalidSignature := by
  refine ⟨?_, ?_, by decide⟩
  · show (List.replicate (maxFwSize + 1) (0 : Nat)).getD 0 0 ≠ 67
    rw [List.replicate_succ, List.getD_cons_zero]
    decide
  · unfold ezusb_install_firmware
    rw [if_pos (by rw [List.length_replicate]; omega)]

/-- C8: every control transfer issued by the per-segment uploader is a
vendor-type host-to-device request (request type byte 0x40) with
request code 0xA0, a 100 ms timeout, and, for some chunk offset k that
is a multiple of 4096 within the payload: value field = low 16 bits of
address + k, index field = bits 16..31 of address + k (the high 16 bits
received by the 16-bit index parameter), and payload = the chunk of at
most 4096 bytes starting at k. -/
theorem chunk_transfer_wire_format (s : Segment) (t : ControlTransfer)
    (ht : t ∈ uploadSegment s) :
    t.bmRequestType = 0x40 ∧ t.bRequest = 0xa0 ∧ t.timeout = 100 ∧
    ∃ k, k % 4096 = 0 ∧ k ≤ s.payload.length ∧
      t.wValue = (s.address + k) % 65536 ∧
      t.wIndex = ((s.address + k) >>> 16) % 65536 ∧
      t.data = (s.payload.drop k).take 4096 := by
  obtain ⟨k, hk0, hk2, hk3, rfl⟩ :=
    segChunks_mem s.address s.payload (s.payload.length + 1) 0
      (by omega) (by omega) t ht
  have hF : FW_CHUNKSIZE = 4096 := rfl
  rw [hF] at hk3
  refine ⟨rfl, rfl, rfl, k, by simpa using hk3, hk2, rfl, rfl, ?_⟩
  dsimp only
  rw [hF]
  rcases le_or_lt (s.payload.length - k) 4096 with hlen | hlen
  · have h1 : (s.payload.drop k).length ≤ s.payload.length - k := by
      rw [List.length_drop]
    have h2 : (s.payload.drop k).length ≤ 4096 := by
      rw [List.length_drop]; omega
    rw [min_eq_left hlen, List.take_of_length_le h1, List.take_of_length_le h2]
  · rw [min_eq_right (le_of_lt hlen)]

/-- C8 witness: the single transfer uploaded for a 4-byte segment at
address 0x10000 carries value 0, index 1, the 4 payload bytes and the
100 ms timeout. -/
theorem chunk_transfer_wire_format_witness :
    (⟨0x40, 0xa0, 0, 1, [1, 2, 3, 4], 100⟩ : ControlTransfer).bmRequestType
        = 0x40 ∧
    (⟨0x40, 0xa0, 0, 1, [1, 2, 3, 4], 100⟩ : ControlTransfer).bRequest
        = 0xa0 ∧
    (⟨0x40, 0xa0, 0, 1, [1, 2, 3, 4], 100⟩ : ControlTransfer).timeout
        = 100 ∧
    ∃ k, k % 4096 = 0 ∧
      k ≤ (Segment.mk 0x10000 [1, 2, 3, 4]).payload.length ∧
      (⟨0x40, 0xa0, 0, 1, [1, 2, 3, 4], 100⟩ : ControlTransfer).wValue =
        ((Segment.mk 0x10000 [1, 2, 3, 4]).address + k) % 65536 ∧
      (⟨0x40, 0xa0, 0, 1, [1, 2, 3, 4], 100⟩ : ControlTransfer).wIndex =
        (((Segment.mk 0x10000 [1, 2, 3, 4]).address + k) >>> 16) % 65536 ∧
      (⟨0x40, 0xa0, 0, 1, [1, 2, 3, 4], 100⟩ : ControlTransfer).data =
        (((Segment.mk 0x10000 [1, 2, 3, 4]).payload).drop k).take 4096 :=
  chunk_transfer_wire_format ⟨0x10000, [1, 2, 3, 4]⟩
    ⟨0x40, 0xa0, 0, 1, [1, 2, 3, 4], 100⟩ (by decide)

/-- C9: the parser computes a segment's byteLength as
(encodedLength * 4) mod 2^32; every encoded length at least 2^30 wraps
(2^30 itself yields byteLength 0), and an image declaring encoded
length 2^30 is accepted, its segment parsed as zero-length. -/
theorem segment_length_wraps_mod_2_32 :
    (∀ e, segByteLen e = e * 4 % 2 ^ 32) ∧
    segByteLen (2 ^ 30) = 0 ∧
    (∀ e, segByteLen (2 ^ 30 + e) < (2 ^ 30 + e) * 4) ∧
    RL32 [67, 89, 0, 0xb0, 0, 0, 0, 64, 0, 0, 0, 0] 4 = 2 ^ 30 ∧
    (ezusb_install_firmware [67, 89, 0, 0xb0, 0, 0, 0, 64, 0, 0, 0, 0]).2 =
      .ok () ∧
    (ezusb_install_firmware
        [67, 89, 0, 0xb0, 0, 0, 0, 64, 0, 0, 0, 0]).1.segments =
      [⟨0, []⟩] := by
  have hmod : ∀ e, segByteLen e = e * 4 % 2 ^ 32 := by
    intro e
    simp [segByteLen, Nat.shiftLeft_eq]
  refine ⟨hmod, by decide, fun e => ?_, by decide, rfl, by decide⟩
  rw [hmod]
  calc (2 ^ 30 + e) * 4 % 2 ^ 32 < 2 ^ 32 :=
        Nat.mod_lt _ (by norm_num)
    _ ≤ (2 ^ 30 + e) * 4 := by omega

/-- One bulk-transfer completion as delivered to transfer_callback by
the event dispatch: the transport status (ok = LIBUSB_TRANSFER_COMPLETED),
the actual byte count, the wall-clock time in microseconds read by
gettimeofday inside the callback, and whether a resubmission attempt by
libusb_submit_transfer would return 0. -/
structure Completion where
  status_ok : Bool
  actual_length : Nat
  now : Nat
  resubmit_ok : Bool
deriving Repr, DecidableEq

/-- One statistics report printed at a window boundary: the session's
running pass and fail counts, the last transfer's actual length, and
the data-rate figure computed as (windowBytes/1024)/(elapsed_us/10^6)
(the double arithmetic of the C code modelled exactly over the
rationals). -/
structure Report where
  success_count : Nat
  failure_count : Nat
  per_pass : Nat
  rate : ℚ
deriving Repr, DecidableEq

/-- The mutable globals of my_usb_example.c that the callback touches:
counters, the current statistics window, the window start timestamp,
the stop flag and the in-flight transfer count (a C int). -/
structure StreamState where
  success_count : Nat
  failure_count : Nat
  transfer_size : Nat
  transfer_index : Nat
  tv_start : Nat
  stop_transfers : Bool
  xfers_in_progress : Int
deriving Repr, DecidableEq

/-- Result of one callback invocation: the new global state, the report
emitted at a window boundary if any, whether a resubmission was
attempted (the stop flag was down), and whether it succeeded. -/
structure CBResult where
  st : StreamState
  report : Option Report
  resubmit_attempted : Bool
  resubmitted : Bool
deriving Repr, DecidableEq

/-- transfer_callback from my_usb_example.c: decrement the in-flight
count; count the completion as pass or fail (a failed transfer
contributes 0 bytes); accumulate the window byte total and window
index; at a full window (index = queuedepth) print a report with rate
(windowBytes/1024)/(elapsed_us/10^6) and zero the window, restarting
its clock; finally, unless stop_transfers is set, resubmit the same
transfer, incrementing the in-flight count only if submission
succeeds. -/
def transfer_callback (queuedepth : Nat) (st : StreamState) (c : Completion) :
    CBResult :=
  let st1 : StreamState :=
    { st with xfers_in_progress := st.xfers_in_progress - 1 }
  let size : Nat := if c.status_ok then c.actual_length else 0
  let st2 : StreamState :=
    if c.status_ok then { st1 with success_count := st1.success_count + 1 }
    else { st1 with failure_count := st1.failure_count + 1 }
  let st3 : StreamState :=
    { st2 with transfer_size := st2.transfer_size + size
               transfer_index := st2.transfer_index + 1 }
  let st4 : StreamState :=
    if st3.transfer_index = queuedepth then
      { st3 with transfer_index := 0
                 transfer_size := 0
                 tv_start := c.now }
    else st3
  let rep : Option Report :=
    if st3.transfer_index = queuedepth then
      some { success_count := st3.success_count
             failure_count := st3.failure_count
             per_pass := c.actual_length
             rate := ((st3.transfer_size : ℚ) / 1024) /
               (((c.now - st3.tv_start : Nat) : ℚ) / 1000000) }
    else none
  if st4.stop_transfers then ⟨st4, rep, false, false⟩
  else if c.resubmit_ok then
    ⟨{ st4 with xfers_in_progress := st4.xfers_in_progress + 1 },
      rep, true, true⟩
  else ⟨st4, rep, true, false⟩

/-- Folding transfer_callback over a list of completions, as one call
to libusb_handle_events delivers them: returns the final state, the
reports emitted in order, and how many resubmissions were attempted. -/
def runCallbacks (queuedepth : Nat) :
    StreamState → List Completion → StreamState × List Report × Nat
  | st, [] => (st, [], 0)
  | st, c :: cs =>
    let r := transfer_callback queuedepth st c
    let rest := runCallbacks queuedepth r.st cs
    (rest.1,
      (match r.report with
        | some rep => rep :: rest.2.1
        | none => rest.2.1),
      (if r.resubmit_attempted then 1 else 0) + rest.2.2)

/-- The state right after main's initial submission loop: counters and
window zeroed, stop flag down, and the in-flight count equal to the
number of the queuedepth initial submissions that succeeded. -/
def initialState (queuedepth : Nat) (submitOk : Nat → Bool) : StreamState :=
  { success_count := 0
    failure_count := 0
    transfer_size := 0
    transfer_index := 0
    tv_start := 0
    stop_transfers := false
    xfers_in_progress := (((List.range queuedepth).filter
      (fun i => submitOk i)).length : Int) }

/-- Main's shutdown loop: while the in-flight count is non-zero, invoke
the event dispatch once more (each call delivering one batch of
completions).  Returns the state in which free_transfer_buffers is then
called and the number of dispatch calls made. -/
def shutdownLoop (queuedepth : Nat) :
    StreamState → List (List Completion) → StreamState × Nat
  | st, [] => (st, 0)
  | st, b :: bs =>
    if st.xfers_in_progress = 0 then (st, 0)
    else
      let next := shutdownLoop queuedepth (runCallbacks queuedepth st b).1 bs
      (next.1, next.2 + 1)

/-- Each completion increments the session success count exactly on a
successful status. -/
lemma cb_success_count (qd : Nat) (st : StreamState) (c : Completion) :
    (transfer_callback qd st c).st.success_count =
      st.success_count + (if c.status_ok then 1 else 0) := by
  unfold transfer_callback
  dsimp only
  split_ifs <;> rfl

/-- Each completion increments the session failure count exactly on a
failed status. -/
lemma cb_failure_count (qd : Nat) (st : StreamState) (c : Completion) :
    (transfer_callback qd st c).st.failure_count =
      st.failure_count + (if c.status_ok then 0 else 1) := by
  unfold transfer_callback
  dsimp only
  split_ifs <;> rfl

/-- The callback never writes the stop flag. -/
lemma cb_stop_pres (qd : Nat) (st : StreamState) (c : Completion) :
    (transfer_callback qd st c).st.stop_transfers = st.stop_transfers := by
  unfold transfer_callback
  dsimp only
  split_ifs <;> rfl

/-- The callback never increases the in-flight count: it decrements it
and re-increments it at most once on resubmission. -/
lemma cb_inflight_le (qd : Nat) (st : StreamState) (c : Completion) :
    (transfer_callback qd st c).st.xfers_in_progress ≤ st.xfers_in_progress := by
  unfold transfer_callback
  dsimp only
  split_ifs <;> dsimp only <;> omega

/-- The window transfer index after a completion: zeroed exactly when
the incremented index reaches queuedepth. -/
lemma cb_index (qd : Nat) (st : StreamState) (c : Completion) :
    (transfer_callback qd st c).st.transfer_index =
      if st.transfer_index + 1 = qd then 0 else st.transfer_index + 1 := by
  unfold transfer_callback
  dsimp only
  split_ifs <;> simp_all

/-- The window byte total after a completion: zeroed exactly at a
window boundary, otherwise grown by the completion's counted size. -/
lemma cb_window_size (qd : Nat) (st : StreamState) (c : Completion) :
    (transfer_callback qd st c).st.transfer_size =
      if st.transfer_index + 1 = qd then 0
      else st.transfer_size + (if c.status_ok then c.actual_length else 0) := by
  unfold transfer_callback
  dsimp only
  split_ifs <;> simp_all

/-- The window start timestamp is reset to the completion time exactly
at a window boundary. -/
lemma cb_tv_start (qd : Nat) (st : StreamState) (c : Completion) :
    (transfer_callback qd st c).st.tv_start =
      if st.transfer_index + 1 = qd then c.now else st.tv_start := by
  unfold transfer_callback
  dsimp only
  split_ifs <;> simp_all

/-- A report is emitted precisely when the incremented window index
reaches queuedepth. -/
lemma cb_report_iff (qd : Nat) (st : StreamState) (c : Completion) :
    (transfer_callback qd st c).report.isSome ↔ st.transfer_index + 1 = qd := by
  unfold transfer_callback
  dsimp only
  split_ifs <;> simp_all

/-- The emitted report carries the rate
(windowBytes/1024)/(elapsed microseconds/10^6) over the bytes
accumulated in the ending window, and the post-increment counts. -/
lemma cb_report_rate (qd : Nat) (st : StreamState) (c : Completion)
    (rep : Report) (h : (transfer_callback qd st c).report = some rep) :
    rep.rate = (((st.transfer_size +
        (if c.status_ok then c.actual_length else 0) : Nat) : ℚ) / 1024) /
      (((c.now - st.tv_start : Nat) : ℚ) / 1000000) ∧
    rep.success_count = st.success_count + (if c.status_ok then 1 else 0) ∧
    rep.failure_count = st.failure_count + (if c.status_ok then 0 else 1) := by
  unfold transfer_callback at h
  dsimp only at h
  split_ifs at h <;>
    first
      | exact Option.noConfusion h
      | (injection h with h2; subst h2; simp_all)

/-- With the stop flag set, the callback attempts no resubmission and
the in-flight count just decrements. -/
lemma cb_stop_noresubmit (qd : Nat) (st : StreamState) (c : Completion)
    (h : st.stop_transfers = true) :
    (transfer_callback qd st c).resubmit_attempted = false ∧
    (transfer_callback qd st c).resubmitted = false ∧
    (transfer_callback qd st c).st.xfers_in_progress =
      st.xfers_in_progress - 1 := by
  unfold transfer_callback
  dsimp only
  split_ifs <;> simp_all

/-- Folding callbacks never increases the in-flight count. -/
lemma run_inflight_le (qd : Nat) :
    ∀ (cs : List Completion) (st : StreamState),
      (runCallbacks qd st cs).1.xfers_in_progress ≤ st.xfers_in_progress := by
  intro cs
  induction cs with
  | nil => intro st; exact le_refl _
  | cons c cs ih =>
    intro st
    calc (runCallbacks qd st (c :: cs)).1.xfers_in_progress
        = (runCallbacks qd
            (transfer_callback qd st c).st cs).1.xfers_in_progress := rfl
      _ ≤ (transfer_callback qd st c).st.xfers_in_progress := ih _
      _ ≤ st.xfers_in_progress := cb_inflight_le qd st c

/-- Folding callbacks never decreases the session pass and fail
counters. -/
lemma run_counts_mono (qd : Nat) :
    ∀ (cs : List Completion) (st : StreamState),
      st.success_count ≤ (runCallbacks qd st cs).1.success_count ∧
      st.failure_count ≤ (runCallbacks qd st cs).1.failure_count := by
  intro cs
  induction cs with
  | nil => intro st; exact ⟨le_refl _, le_refl _⟩
  | cons c cs ih =>
    intro st
    obtain ⟨ih1, ih2⟩ := ih (transfer_callback qd st c).st
    constructor
    · calc st.success_count
          ≤ (transfer_callback qd st c).st.success_count := by
            rw [cb_success_count]; omega
        _ ≤ (runCallbacks qd st (c :: cs)).1.success_count := ih1
    · calc st.failure_count
          ≤ (transfer_callback qd st c).st.failure_count := by
            rw [cb_failure_count]; omega
        _ ≤ (runCallbacks qd st (c :: cs)).1.failure_count := ih2

/-- With the stop flag set: a batch of n completions lowers the
in-flight count by exactly n, the flag stays set, and no resubmission
is attempted. -/
lemma run_stop (qd : Nat) :
    ∀ (cs : List Completion) (st : StreamState), st.stop_transfers = true →
      (runCallbacks qd st cs).1.xfers_in_progress =
        st.xfers_in_progress - cs.length ∧
      (runCallbacks qd st cs).1.stop_transfers = true ∧
      (runCallbacks qd st cs).2.2 = 0 := by
  intro cs
  induction cs with
  | nil => intro st h; exact ⟨by simp [runCallbacks], h, rfl⟩
  | cons c cs ih =>
    intro st h
    have hcb := cb_stop_noresubmit qd st c h
    have hpres : (transfer_callback qd st c).st.stop_transfers = true := by
      rw [cb_stop_pres]; exact h
    obtain ⟨h1, h2, h3⟩ := ih (transfer_callback qd st c).st hpres
    refine ⟨?_, h2, ?_⟩
    · show (runCallbacks qd
          (transfer_callback qd st c).st cs).1.xfers_in_progress = _
      rw [h1, hcb.2.2]
      simp only [List.length_cons]
      push_cast
      ring
    · show (if (transfer_callback qd st c).resubmit_attempted
          then 1 else 0) + (runCallbacks qd (transfer_callback qd st c).st cs).2.2
          = 0
      rw [hcb.1, h3]
      simp

/-- The shutdown loop empties the in-flight count when the dispatched
batches deliver, in total, one completion per outstanding transfer. -/
lemma shutdown_drains (qd : Nat) :
    ∀ (batches : List (List Completion)) (st : StreamState),
      st.stop_transfers = true →
      (((batches.map List.length).sum : Nat) : Int) = st.xfers_in_progress →
      (shutdownLoop qd st batches).1.xfers_in_progress = 0 ∧
      (shutdownLoop qd st batches).1.stop_transfers = true := by
  intro batches
  induction batches with
  | nil =>
    intro st hstop hsum
    refine ⟨?_, hstop⟩
    simp only [List.map_nil, List.sum_nil] at hsum
    exact hsum ▸ rfl
  | cons b bs ih =>
    intro st hstop hsum
    simp only [shutdownLoop]
    by_cases hz : st.xfers_in_progress = 0
    · rw [if_pos hz]
      exact ⟨hz, hstop⟩
    · rw [if_neg hz]
      obtain ⟨h1, h2, _⟩ := run_stop qd b st hstop
      have := ih (runCallbacks qd st b).1 h2 (by
        rw [h1]
        simp only [List.map_cons, List.sum_cons] at hsum ⊢
        push_cast at hsum ⊢
        omega)
      exact this

/-- C6: from the initial state (at most queuedepth successful initial
submissions), the in-flight count stays at most queuedepth across any
sequence of completions; and once the stop flag is set, a shutdown
whose dispatch calls deliver one completion per outstanding transfer
ends with the in-flight count exactly 0. -/
theorem inflight_bounded_and_drains (qd : Nat) (submitOk : Nat → Bool)
    (cs : List Completion) (st : StreamState)
    (batches : List (List Completion))
    (_hqd : 1 ≤ qd)
    (hstop : st.stop_transfers = true)
    (hsum : (((batches.map List.length).sum : Nat) : Int) =
      st.xfers_in_progress) :
    (runCallbacks qd (initialState qd submitOk) cs).1.xfers_in_progress ≤
      (qd : Int) ∧
    (shutdownLoop qd st batches).1.xfers_in_progress = 0 := by
  constructor
  · calc (runCallbacks qd (initialState qd submitOk) cs).1.xfers_in_progress
        ≤ (initialState qd submitOk).xfers_in_progress :=
          run_inflight_le qd cs _
      _ ≤ (qd : Int) := by
          show (((((List.range qd).filter
            (fun i => submitOk i)).length : Nat)) : Int) ≤ (qd : Int)
          have hf : ((List.range qd).filter
              (fun i => submitOk i)).length ≤ qd := by
            calc ((List.range qd).filter (fun i => submitOk i)).length
                ≤ (List.range qd).length := List.length_filter_le _ _
              _ = qd := List.length_range qd
          exact_mod_cast hf
  · exact (shutdown_drains qd batches st hstop hsum).1

/-- C6 witness at queuedepth 2: two successful initial submissions,
one completion processed, then a shutdown delivering one completion in
each of two dispatch calls. -/
theorem inflight_bounded_and_drains_witness :
    (runCallbacks 2 (initialState 2 (fun _ => true))
        [⟨true, 512, 7, true⟩]).1.xfers_in_progress ≤ (2 : Int) ∧
    (shutdownLoop 2 ⟨0, 0, 0, 0, 0, true, 2⟩
        [[⟨true, 512, 7, true⟩],
         [⟨false, 0, 9, true⟩]]).1.xfers_in_progress = 0 :=
  inflight_bounded_and_drains 2 (fun _ => true) [⟨true, 512, 7, true⟩]
    ⟨0, 0, 0, 0, 0, true, 2⟩ [[⟨true, 512, 7, true⟩], [⟨false, 0, 9, true⟩]]
    (by decide) rfl (by decide)

/-- C7: once the stop flag is set, the callback attempts no
resubmission and leaves the flag set; a whole dispatched batch attempts
zero resubmissions; and the shutdown loop hands free_transfer_buffers a
state with zero transfers in flight (buffers are released only after
the in-flight count has reached zero), the flag still set. -/
theorem no_submission_after_stop (qd : Nat) (st : StreamState)
    (c : Completion) (cs : List Completion)
    (batches : List (List Completion))
    (hstop : st.stop_transfers = true)
    (hsum : (((batches.map List.length).sum : Nat) : Int) =
      st.xfers_in_progress) :
    (transfer_callback qd st c).resubmit_attempted = false ∧
    (transfer_callback qd st c).st.stop_transfers = true ∧
    (runCallbacks qd st cs).2.2 = 0 ∧
    (shutdownLoop qd st batches).1.xfers_in_progress = 0 ∧
    (shutdownLoop qd st batches).1.stop_transfers = true := by
  refine ⟨(cb_stop_noresubmit qd st c hstop).1, ?_,
    (run_stop qd cs st hstop).2.2, (shutdown_drains qd batches st hstop hsum).1,
    (shutdown_drains qd batches st hstop hsum).2⟩
  rw [cb_stop_pres]
  exact hstop

/-- C7 witness at queuedepth 1 with one outstanding transfer. -/
theorem no_submission_after_stop_witness :
    (transfer_callback 1 ⟨3, 1, 0, 0, 0, true, 1⟩
        ⟨true, 64, 11, true⟩).resubmit_attempted = false ∧
    (runCallbacks 1 ⟨3, 1, 0, 0, 0, true, 1⟩
        [⟨true, 64, 11, true⟩]).2.2 = 0 ∧
    (shutdownLoop 1 ⟨3, 1, 0, 0, 0, true, 1⟩
        [[⟨true, 64, 11, true⟩]]).1.xfers_in_progress = 0 := by
  have h := no_submission_after_stop 1 ⟨3, 1, 0, 0, 0, true, 1⟩
    ⟨true, 64, 11, true⟩ [⟨true, 64, 11, true⟩] [[⟨true, 64, 11, true⟩]]
    rfl (by decide)
  exact ⟨h.1, h.2.2.1, h.2.2.2.1⟩

/-- C10: a completion increments exactly one of the session pass and
fail counters (pass on transport success, fail otherwise), the two
counters survive every window-boundary reset (only the window byte
total and window index are zeroed there), and both counters are
nondecreasing across any sequence of completions. -/
theorem session_counters_monotone (qd : Nat) (st : StreamState)
    (c : Completion) (cs : List Completion) :
    (transfer_callback qd st c).st.success_count =
      st.success_count + (if c.status_ok then 1 else 0) ∧
    (transfer_callback qd st c).st.failure_count =
      st.failure_count + (if c.status_ok then 0 else 1) ∧
    (transfer_callback qd st c).st.success_count +
        (transfer_callback qd st c).st.failure_count =
      st.success_count + st.failure_count + 1 ∧
    (transfer_callback qd st c).st.transfer_index =
      (if st.transfer_index + 1 = qd then 0 else st.transfer_index + 1) ∧
    (transfer_callback qd st c).st.transfer_size =
      (if st.transfer_index + 1 = qd then 0
       else st.transfer_size + (if c.status_ok then c.actual_length else 0)) ∧
    st.success_count ≤ (runCallbacks qd st cs).1.success_count ∧
    st.failure_count ≤ (runCallbacks qd st cs).1.failure_count := by
  refine ⟨cb_success_count qd st c, cb_failure_count qd st c, ?_,
    cb_index qd st c, cb_window_size qd st c,
    (run_counts_mono qd cs st).1, (run_counts_mono qd cs st).2⟩
  rw [cb_success_count, cb_failure_count]
  by_cases hok : c.status_ok <;> simp [hok] <;> omega

/-- C4 (amended): a report is emitted exactly when the window index
reaches queuedepth, at which point (and at no other) the window index
and window byte total are zeroed and the window clock restarts; the
reported figure equals (windowBytes/1024) divided by the window's
elapsed seconds — kilobytes per second — not windowBytes divided by
elapsed seconds. -/
theorem window_reset_every_queuedepth (qd : Nat) (st : StreamState)
    (c : Completion) :
    ((transfer_callback qd st c).report.isSome ↔
      st.transfer_index + 1 = qd) ∧
    (transfer_callback qd st c).st.transfer_index =
      (if st.transfer_index + 1 = qd then 0 else st.transfer_index + 1) ∧
    (transfer_callback qd st c).st.transfer_size =
      (if st.transfer_index + 1 = qd then 0
       else st.transfer_size + (if c.status_ok then c.actual_length else 0)) ∧
    (transfer_callback qd st c).st.tv_start =
      (if st.transfer_index + 1 = qd then c.now else st.tv_start) ∧
    ∀ rep, (transfer_callback qd st c).report = some rep →
      rep.rate = (((st.transfer_size +
          (if c.status_ok then c.actual_length else 0) : Nat) : ℚ) / 1024) /
        (((c.now - st.tv_start : Nat) : ℚ) / 1000000) := by
  refine ⟨cb_report_iff qd st c, cb_index qd st c, cb_window_size qd st c,
    cb_tv_start qd st c, fun rep hrep => ?_⟩
  exact (cb_report_rate qd st c rep hrep).1

/-- C4 witness: queuedepth 1, a 2048-byte successful completion one
second after the window start: the reported rate is the 2 predicted by
the kilobytes-per-second formula. -/
theorem window_reset_every_queuedepth_witness :
    (2 : ℚ) = ((((0 : Nat) + 2048 : Nat) : ℚ) / 1024) /
      (((1000000 - 0 : Nat) : ℚ) / 1000000) := by
  have h := (window_reset_every_queuedepth 1 ⟨0, 0, 0, 0, 0, false, 1⟩
      ⟨true, 2048, 1000000, true⟩).2.2.2.2 ⟨1, 0, 2048, 2⟩
    (by norm_num [transfer_callback])
  simpa using h

/-- C4 counterexample: in that same window the code reports 2 (KiB per
second), while the window's accumulated bytes divided by its elapsed
seconds is 2048; the two differ, so the reported figure is not
bytes-per-second. -/
theorem rate_is_not_bytes_per_second :
    ((transfer_callback 1 ⟨0, 0, 0, 0, 0, false, 1⟩
        ⟨true, 2048, 1000000, true⟩).report).map Report.rate = some 2 ∧
    ((2048 : ℚ) / (((1000000 - 0 : Nat) : ℚ) / 1000000)) = 2048 ∧
    (2 : ℚ) ≠ 2048 := by
  refine ⟨by norm_num [transfer_callback], by norm_num, by norm_num⟩

/-- STARTFX3 from the FX3Command enum in ezusb.h. -/
def STARTFX3 : Nat := 0xAA

/-- STOPFX3 from the FX3Command enum in ezusb.h. -/
def STOPFX3 : Nat := 0xAB

/-- STARTADC from the FX3Command enum in ezusb.h. -/
def STARTADC : Nat := 0xB2

/-- The externally visible actions of main's session-startup section,
in program order. -/
inductive StartupEvent where
  | freeAll
  | fillAndSubmit (i : Nat)
  | sendCommand (cmd : Nat) (data : Nat)
deriving Repr, DecidableEq

/-- Control flow of main between the slot allocations and the dispatch
loop, as written: compute allocfail from the calloc results and the
per-slot malloc/alloc_transfer results; if it is set, print and call
free_transfer_buffers — and then, with no early return, fall through to
the loop that fills and submits all queuedepth transfers and to the
STARTADC and STARTFX3 commands. -/
def sessionStartup (queuedepth : Nat) (callocOk : Bool)
    (slotAllocOk : Nat → Bool) (samplerate : Nat) : List StartupEvent :=
  let allocfail := !callocOk || !((List.range queuedepth).all slotAllocOk)
  (if allocfail then [StartupEvent.freeAll] else []) ++
  ((List.range queuedepth).map StartupEvent.fillAndSubmit) ++
  [StartupEvent.sendCommand STARTADC samplerate,
   StartupEvent.sendCommand STARTFX3 0]

/-- C5 (code bug): with the default queuedepth 16 and a failed calloc,
the startup does free the already-allocated buffers, but is not
aborted: the fill-and-submit loop still runs (dereferencing the just
released or null transfer structures) and the device start commands
are still sent. -/
theorem alloc_failure_not_aborted :
    StartupEvent.freeAll ∈
      sessionStartup 16 false (fun _ => true) (150 * 1000 * 1000) ∧
    StartupEvent.fillAndSubmit 0 ∈
      sessionStartup 16 false (fun _ => true) (150 * 1000 * 1000) ∧
    StartupEvent.sendCommand STARTADC (150 * 1000 * 1000) ∈
      sessionStartup 16 false (fun _ => true) (150 * 1000 * 1000) ∧
    StartupEvent.sendCommand STARTFX3 0 ∈
      sessionStartup 16 false (fun _ => true) (150 * 1000 * 1000) := by
  refine ⟨by decide, by decide, by decide, by decide⟩
